import Mathlib

/-!
Shallow embedding of the redis-export tool (src/main.go) and proofs of the
specification claims about it.

The Go program's per-key pipeline (`getValueByType`, `processKey`, `worker`)
is embedded as pure functions over an abstract client record; the `Export`
writer loop is embedded as a fold over the stream of resolved entries, with
external cancellation modelled by the number of writer-loop events observed
before the context's done-channel is selected.  Machine integers (`int64`,
`time.Duration` in nanoseconds) are modelled as `Int`; fallible calls return
`Except`.
-/

namespace RedisExport

/-- Go `error` values are modelled by their message strings. -/
abbrev GoErr := String

/-- Go `float64` scores of sorted-set members, modelled with an integral
finite case (enough for the claims, which depend only on whether the value
is JSON-encodable) plus the three non-finite values that `encoding/json`
refuses to marshal. -/
inductive GoFloat
  | finite (n : Int)
  | inf
  | negInf
  | nan
deriving DecidableEq, Repr

/-- `redis.Z`: one sorted-set member with its score (fields `Score`, `Member`). -/
structure ZMember where
  score : GoFloat
  member : String
deriving DecidableEq, Repr

/-- `redis.XMessage`: one stream entry (fields `ID`, `Values`). -/
structure StreamEntry where
  id : String
  values : List (String × String)
deriving DecidableEq, Repr

/-- The dynamically typed `interface{}` results of the value fetches in
`getValueByType`: one constructor per fetch shape. -/
inductive RValue
  | str (s : String)
  | list (xs : List String)
  | set (xs : List String)
  | zset (xs : List ZMember)
  | hash (fs : List (String × String))
  | stream (es : List StreamEntry)
deriving DecidableEq, Repr

/-- `RedisEntry` (src/main.go lines 29-34): the exported record.  `ttl`
models the `TTL int64` field with tag `json:"ttl,omitempty"`; its Go zero
value is 0 and `processKey` only assigns it when the fetched TTL is
positive. -/
structure RedisEntry where
  key : String
  type : String
  value : RValue
  ttl : Int := 0
deriving DecidableEq, Repr

/-- The external redis client plus the scan stream consumed by `Export`'s
enumeration goroutine: `scanKeys` are the keys the scan iterator yields
before it stops, and `scanErr` is what `iter.Err()` reports afterwards
(`none` on a clean exhaustion). -/
structure RedisClient where
  typeOf : String → Except GoErr String
  get : String → Except GoErr String
  lrange : String → Except GoErr (List String)
  smembers : String → Except GoErr (List String)
  zrangeWithScores : String → Except GoErr (List ZMember)
  hgetall : String → Except GoErr (List (String × String))
  xrange : String → Except GoErr (List StreamEntry)
  ttl : String → Except GoErr Int
  scanKeys : List String
  scanErr : Option GoErr

/-- `getValueByType` (src/main.go lines 59-76): type-dispatch table; the Go
`switch` is embedded as the equivalent chain of equality tests, with the
`default` arm producing the unsupported-type error. -/
def getValueByType (c : RedisClient) (key keyType : String) : Except GoErr RValue :=
  if keyType = "string" then (c.get key).map RValue.str
  else if keyType = "list" then (c.lrange key).map RValue.list
  else if keyType = "set" then (c.smembers key).map RValue.set
  else if keyType = "zset" then (c.zrangeWithScores key).map RValue.zset
  else if keyType = "hash" then (c.hgetall key).map RValue.hash
  else if keyType = "stream" then (c.xrange key).map RValue.stream
  else .error ("unsupported key type: " ++ keyType)

/-- `int64(ttl.Seconds())` for a positive `time.Duration` held in
nanoseconds: division truncating toward zero (exact for every duration whose
nanosecond count is below 2^53, where the intermediate `float64` is exact). -/
def durationSeconds (d : Int) : Int := d.tdiv 1000000000

/-- `processKey` (src/main.go lines 78-105): the three sequential sub-fetches
with their early-return error wrapping, then the entry construction that
assigns `TTL` only when the fetched duration is positive. -/
def processKey (c : RedisClient) (key : String) : Except GoErr RedisEntry :=
  match c.typeOf key with
  | .error err => .error ("failed to get type for key " ++ key ++ ": " ++ err)
  | .ok keyType =>
    match getValueByType c key keyType with
    | .error err => .error ("failed to get value for key " ++ key ++ ": " ++ err)
    | .ok value =>
      match c.ttl key with
      | .error err => .error ("failed to get TTL for key " ++ key ++ ": " ++ err)
      | .ok ttl =>
        .ok { key := key, type := keyType, value := value,
              ttl := if 0 < ttl then durationSeconds ttl else 0 }

/-- One `logrus` log line: the `WithFields` fields and the message. -/
structure LogEntry where
  fields : List (String × String)
  msg : String
deriving DecidableEq, Repr

/-- `worker` (src/main.go lines 107-125) over a list of dequeued keys: a
failed `processKey` is logged with the `key` field and the worker continues
with the next key; a successful entry is forwarded to the results stream.
(The per-key `ctx.Done()` check only matters under cancellation, which is
modelled at the writer, the stage whose output the claims observe.) -/
def workerRun (c : RedisClient) : List String → List RedisEntry × List LogEntry
  | [] => ([], [])
  | key :: rest =>
    let out := workerRun c rest
    match processKey c key with
    | .error m => (out.fst, ⟨[("key", key)], "Error processing key: " ++ m⟩ :: out.snd)
    | .ok e => (e :: out.fst, out.snd)

/-! ### JSON values, Go-style marshalling -/

/-- JSON values as produced by `encoding/json` for the shapes this program
emits (numbers only ever integral here, see `GoFloat`). -/
inductive Json
  | null
  | str (s : String)
  | num (n : Int)
  | arr (xs : List Json)
  | obj (fs : List (String × Json))
deriving Repr

/-- Hex digit used in `\u00XX` escapes (lower case, as Go emits). -/
def hexDigit (n : Nat) : Char :=
  if n < 10 then Char.ofNat (48 + n) else Char.ofNat (87 + n)

/-- One character of a JSON string, escaped exactly as Go's
`encoding/json` encoder (with its default HTML escaping) emits it. -/
def escapeChar (c : Char) : String :=
  if c = '"' then "\\\""
  else if c = '\\' then "\\\\"
  else if c = '\n' then "\\n"
  else if c = '\r' then "\\r"
  else if c = '\t' then "\\t"
  else if c = '<' then "\\u003c"
  else if c = '>' then "\\u003e"
  else if c = '&' then "\\u0026"
  else if c.toNat < 32 then
    "\\u00" ++ String.mk [hexDigit (c.toNat / 16), hexDigit (c.toNat % 16)]
  else if c.toNat = 8232 then "\\u2028"
  else if c.toNat = 8233 then "\\u2029"
  else String.mk [c]

/-- A JSON string literal with Go's escaping. -/
def quoteString (s : String) : String :=
  "\"" ++ String.join (s.data.map escapeChar) ++ "\""

mutual
/-- Compact serialization matching `json.Marshal` output for these values. -/
def serialize : Json → String
  | .null => "null"
  | .str s => quoteString s
  | .num n => toString n
  | .arr xs => "[" ++ serializeList xs ++ "]"
  | .obj fs => "\x7b" ++ serializeFields fs ++ "\x7d"

/-- Comma-separated serialization of array elements. -/
def serializeList : List Json → String
  | [] => ""
  | [x] => serialize x
  | x :: y :: xs => serialize x ++ "," ++ serializeList (y :: xs)

/-- Comma-separated serialization of object members. -/
def serializeFields : List (String × Json) → String
  | [] => ""
  | [(k, v)] => quoteString k ++ ":" ++ serialize v
  | (k, v) :: g :: fs => quoteString k ++ ":" ++ serialize v ++ "," ++ serializeFields (g :: fs)
end

/-- Insertion into a key-sorted association list (Go marshals maps with
their keys sorted; UTF-8 byte order coincides with codepoint order). -/
def insertField (p : String × String) : List (String × String) → List (String × String)
  | [] => [p]
  | q :: qs => if p.fst < q.fst then p :: q :: qs else q :: insertField p qs

/-- Sort map entries by key, as `json.Marshal` does for Go maps. -/
def sortFields (fs : List (String × String)) : List (String × String) :=
  fs.foldr insertField []

/-- Marshalling a `float64` score: `encoding/json` rejects the non-finite
values with `json: unsupported value` errors. -/
def encodeGoFloat : GoFloat → Except GoErr Json
  | .finite n => .ok (.num n)
  | .inf => .error "json: unsupported value: +Inf"
  | .negInf => .error "json: unsupported value: -Inf"
  | .nan => .error "json: unsupported value: NaN"

/-- Marshalling one `redis.Z` (struct fields in declaration order). -/
def encodeZMember (m : ZMember) : Except GoErr Json := do
  let s ← encodeGoFloat m.score
  pure (.obj [("Score", s), ("Member", .str m.member)])

/-- Marshalling one `redis.XMessage` (fields `ID`, `Values`; the `Values`
map marshals with sorted keys). -/
def encodeStreamEntry (e : StreamEntry) : Json :=
  .obj [("ID", .str e.id),
        ("Values", .obj ((sortFields e.values).map fun p => (p.fst, Json.str p.snd)))]

/-- Marshalling the dynamic `Value` field, per fetch shape. -/
def valueToJson : RValue → Except GoErr Json
  | .str s => .ok (.str s)
  | .list xs => .ok (.arr (xs.map Json.str))
  | .set xs => .ok (.arr (xs.map Json.str))
  | .zset ms => (ms.mapM encodeZMember).map Json.arr
  | .hash fs => .ok (.obj ((sortFields fs).map fun p => (p.fst, Json.str p.snd)))
  | .stream es => .ok (.arr (es.map encodeStreamEntry))

/-- Marshalling a `RedisEntry`: struct fields in declaration order, with
the `ttl` member omitted exactly when the field holds its zero value
(`json:"ttl,omitempty"`). -/
def encodeEntry (e : RedisEntry) : Except GoErr Json :=
  match valueToJson e.value with
  | .error m => .error m
  | .ok v =>
    .ok (.obj ([("key", Json.str e.key), ("type", Json.str e.type), ("value", v)]
          ++ (if e.ttl = 0 then [] else [("ttl", Json.num e.ttl)])))

/-- Whether a serialized object carries a member named `k`. -/
def jsonHasKey (j : Json) (k : String) : Bool :=
  match j with
  | .obj fs => fs.any fun p => p.fst = k
  | _ => false

/-- The result of `json.Unmarshal` into a `RedisEntry`: the `Value
interface{}` field receives the raw decoded JSON shape, and fields absent
from the document keep their Go zero values. -/
structure DecodedEntry where
  key : String
  type : String
  value : Json
  ttl : Int
deriving Repr

/-- Unmarshalling one object member into the partially decoded entry:
known names assign the matching field (failing on a type mismatch, as
`json.Unmarshal` does), unknown names are ignored, later duplicates
override earlier ones. -/
def applyField (d : DecodedEntry) (f : String × Json) : Option DecodedEntry :=
  if f.fst = "key" then
    match f.snd with
    | .str s => some { d with key := s }
    | _ => none
  else if f.fst = "type" then
    match f.snd with
    | .str s => some { d with type := s }
    | _ => none
  else if f.fst = "value" then some { d with value := f.snd }
  else if f.fst = "ttl" then
    match f.snd with
    | .num n => some { d with ttl := n }
    | _ => none
  else some d

/-- `json.Unmarshal` of a document into a `RedisEntry`: a non-object is an
error; an object is folded member by member over the zero-valued entry. -/
def decodeEntry : Json → Option DecodedEntry
  | .obj fs => fs.foldlM applyField { key := "", type := "", value := .null, ttl := 0 }
  | _ => none

/-! ### The writer loop of `Export` -/

/-- The writer side of `Export`'s select loop (src/main.go lines 154-224):
the file content written so far, the `firstEntry` separator flag, the
`processed` counter, the elements successfully encoded (in order), and the
writer's log lines. -/
structure WriterState where
  content : String
  firstEntry : Bool
  processed : Nat
  written : List Json
  logs : List LogEntry

/-- State after `file.WriteString("[\n")` (line 155). -/
def initialWriter : WriterState :=
  { content := "[\n", firstEntry := true, processed := 0, written := [], logs := [] }

/-- Receiving one entry on `resultsChan` (lines 184-210): the separator is
written and `firstEntry` cleared before the encode attempt, so a failed
encode is logged and skipped but leaves the separator behind; a successful
encode appends the element plus the encoder's trailing newline and bumps
`processed`. -/
def writerStep (s : WriterState) (e : RedisEntry) : WriterState :=
  match encodeEntry e with
  | .error m =>
    { s with content := (if s.firstEntry then s.content else s.content ++ ",\n"),
             firstEntry := false,
             logs := s.logs ++ [⟨[("key", e.key)], "Error encoding entry: " ++ m⟩] }
  | .ok j =>
    { s with content := (if s.firstEntry then s.content else s.content ++ ",\n")
               ++ serialize j ++ "\n",
             firstEntry := false,
             processed := s.processed + 1, written := s.written ++ [j] }

/-- The select loop: `cancelAt = some n` means the `ctx.Done()` branch is
selected after `n` results have been handled (the possible schedules of the
real select are exactly the choices of `n`, with `none` or any `n` past the
stream's end giving the close-first schedule); the close of `resultsChan`
writes the final `"\n]"` and returns `nil`; cancellation returns
`ctx.Err()` with the content left exactly as flushed. -/
def writerRun : List RedisEntry → Option Nat → WriterState → WriterState × Option GoErr
  | _, some 0, s => (s, some "context canceled")
  | [], _, s => ({ s with content := s.content ++ "\n]" }, none)
  | e :: es, cancelAt, s => writerRun es (cancelAt.map (· - 1)) (writerStep s e)

/-- The observable outcome of one `Export` run: the bytes written to the
output file, the function's return value (`none` models `nil`), the ghost
list of elements written, the `processed` counter, and the per-stage logs. -/
structure ExportResult where
  content : String
  ret : Option GoErr
  written : List Json
  processed : Nat
  writerLogs : List LogEntry
  workerLogs : List LogEntry
  scanLogs : List LogEntry

/-- `Export` (src/main.go lines 127-225): the scan goroutine feeds the
yielded keys and merely logs `iter.Err()` (lines 173-175) before closing
`keysChan`; the workers resolve them; the writer loop drains the results
until the channel closes or cancellation is observed. -/
def exportRun (c : RedisClient) (cancelAt : Option Nat) : ExportResult :=
  let results := workerRun c c.scanKeys
  let scanLogs : List LogEntry :=
    match c.scanErr with
    | some e => [⟨[], "Error during key scanning: " ++ e⟩]
    | none => []
  let final := writerRun results.fst cancelAt initialWriter
  { content := final.fst.content, ret := final.snd, written := final.fst.written,
    processed := final.fst.processed, writerLogs := final.fst.logs,
    workerLogs := results.snd, scanLogs := scanLogs }

/-! ### The bounded queues of the pipeline -/

/-- `Config` (src/main.go lines 19-27).  `BatchSize` is a Go `int`; it is
used as a channel capacity, which requires it non-negative, so it is
modelled as `Nat`. -/
structure Config where
  RedisAddr : String
  RedisPassword : String
  RedisDB : Int
  OutputFile : String
  Workers : Int
  BatchSize : Nat
  LogLevel : String

/-- Capacity of `keysChan` (`make(chan string, e.config.BatchSize)`,
src/main.go line 140). -/
def keysChanCap (cfg : Config) : Nat := cfg.BatchSize

/-- Capacity of `resultsChan` (`make(chan *RedisEntry, e.config.BatchSize)`,
src/main.go line 141). -/
def resultsChanCap (cfg : Config) : Nat := cfg.BatchSize

/-- Buffer contents of the two inter-stage channels. -/
structure PipeState where
  keysBuf : List String
  resultsBuf : List RedisEntry

/-- Channel semantics of the pipeline: a send on a bounded channel only
proceeds while the buffer is below capacity (otherwise the sender blocks),
a receive removes the oldest element. -/
inductive PipeStep (ck cr : Nat) : PipeState → PipeState → Prop
  | enqueueKey (s : PipeState) (k : String) (h : s.keysBuf.length < ck) :
      PipeStep ck cr s ⟨s.keysBuf ++ [k], s.resultsBuf⟩
  | dequeueKey (k : String) (ks : List String) (rs : List RedisEntry) :
      PipeStep ck cr ⟨k :: ks, rs⟩ ⟨ks, rs⟩
  | enqueueResult (s : PipeState) (e : RedisEntry) (h : s.resultsBuf.length < cr) :
      PipeStep ck cr s ⟨s.keysBuf, s.resultsBuf ++ [e]⟩
  | dequeueResult (ks : List String) (e : RedisEntry) (rs : List RedisEntry) :
      PipeStep ck cr ⟨ks, e :: rs⟩ ⟨ks, rs⟩

/-- States reachable from the two freshly made (empty) channels. -/
inductive PipeReachable (ck cr : Nat) : PipeState → Prop
  | init : PipeReachable ck cr ⟨[], []⟩
  | step {s t : PipeState} : PipeReachable ck cr s → PipeStep ck cr s t →
      PipeReachable ck cr t

/-! ### Observation helpers and concrete scenario clients -/

/-- Whether a Go call returned a non-nil error. -/
def isError {ε α : Type} : Except ε α → Bool
  | .error _ => true
  | .ok _ => false

/-- The last byte of the output file so far (`none` for an empty file). -/
def lastChar (s : String) : Option Char := s.data.getLast?

/-- Bracket balance of a document: equal numbers of opening and closing
square and curly brackets (a necessary condition for a syntactically valid
JSON array whose strings contain no brackets). -/
def bracketsBalanced (s : String) : Bool :=
  (s.data.count '[' == s.data.count ']')
    && (s.data.count '\x7b' == s.data.count '\x7d')

/-- A client every operation of which fails; scenario clients below
override the operations a scenario exercises. -/
def baseClient : RedisClient :=
  { typeOf := fun _ => .error "unreachable"
    get := fun _ => .error "unreachable"
    lrange := fun _ => .error "unreachable"
    smembers := fun _ => .error "unreachable"
    zrangeWithScores := fun _ => .error "unreachable"
    hgetall := fun _ => .error "unreachable"
    xrange := fun _ => .error "unreachable"
    ttl := fun _ => .error "unreachable"
    scanKeys := []
    scanErr := none }

/-- A source whose first enumeration page fails: the scan iterator yields
no keys and reports an error. -/
def scanFailClient : RedisClient :=
  { baseClient with scanErr := some "boom" }

/-- A source with two resolvable string keys, used to observe a run
cancelled after one element was flushed. -/
def cancelClient : RedisClient :=
  { baseClient with
    typeOf := fun _ => .ok "string"
    get := fun _ => .ok "v"
    ttl := fun _ => .ok (-1000000000)
    scanKeys := ["k1", "k2"] }

/-- A source whose first key resolves to a sorted set with an infinite
score (which `encoding/json` cannot marshal) and whose second key is a
plain string. -/
def encodeFailClient : RedisClient :=
  { baseClient with
    typeOf := fun k => if k = "bad" then .ok "zset" else .ok "string"
    get := fun _ => .ok "v"
    zrangeWithScores := fun _ => .ok [⟨GoFloat.inf, "m"⟩]
    ttl := fun _ => .ok (-1000000000)
    scanKeys := ["bad", "good"] }

/-- The entry `processKey` builds for the infinite-score key above. -/
def infScoreEntry : RedisEntry :=
  { key := "bad", type := "zset", value := .zset [⟨GoFloat.inf, "m"⟩] }

/-- A client whose type fetch fails for every key. -/
def typeFailClient : RedisClient :=
  { baseClient with typeOf := fun _ => .error "conn", scanKeys := ["k"] }

/-- A client holding one key of an unsupported type and one ordinary
string key. -/
def unsupportedTypeClient : RedisClient :=
  { baseClient with
    typeOf := fun k => if k = "x" then .ok "ReJSON-RL" else .ok "string"
    get := fun _ => .ok "v"
    ttl := fun _ => .ok (-1000000000)
    scanKeys := ["x", "y"] }

/-- A client with one string key carrying a one-hour expiry. -/
def ttlClient : RedisClient :=
  { baseClient with
    typeOf := fun _ => .ok "string"
    get := fun _ => .ok "v"
    ttl := fun _ => .ok 3600000000000
    scanKeys := ["k"] }

/-- A client whose key's remaining TTL is half a second. -/
def subsecondTtlClient : RedisClient :=
  { baseClient with
    typeOf := fun _ => .ok "string"
    get := fun _ => .ok "v"
    ttl := fun _ => .ok 500000000
    scanKeys := ["k"] }

/-- The one-string-key source of the spec's scenario: key `"test:key"`,
value `"test value"`, no expiry (the store's TTL sentinel is -1s). -/
def c7client : RedisClient :=
  { baseClient with
    typeOf := fun _ => .ok "string"
    get := fun _ => .ok "test value"
    ttl := fun _ => .ok (-1000000000)
    scanKeys := ["test:key"] }

/-- `c` with its TTL fetch replaced by a constant answer. -/
def setTTLResult (c : RedisClient) (t : Int) : RedisClient :=
  { c with ttl := fun _ => .ok t }

/-- A sample record with a list-valued payload and no expiry. -/
def sampleListEntry : RedisEntry :=
  { key := "k", type := "list", value := .list ["a", "b"] }

/-- A concrete configuration used to instantiate capacity statements. -/
def sampleConfig : Config :=
  { RedisAddr := "localhost:6379", RedisPassword := "", RedisDB := 0,
    OutputFile := "redis_export.json", Workers := 8, BatchSize := 3,
    LogLevel := "info" }

/-! ### Helper lemmas -/

/-- A successful resolution's entry carries the key it was resolved for. -/
theorem processKey_ok_key {c : RedisClient} {k : String} {e : RedisEntry}
    (h : processKey c k = .ok e) : e.key = k := by
  unfold processKey at h
  split at h
  · exact absurd h (by simp)
  · split at h
    · exact absurd h (by simp)
    · split at h
      · exact absurd h (by simp)
      · simp only [Except.ok.injEq] at h
        subst h
        rfl

/-- A successful resolution's entry has the TTL field the fetched duration
dictates: the truncated second count when positive, zero otherwise. -/
theorem processKey_ttl_val {c : RedisClient} {key : String} {t : Int} {e : RedisEntry}
    (ht : c.ttl key = .ok t) (hp : processKey c key = .ok e) :
    e.ttl = if 0 < t then durationSeconds t else 0 := by
  unfold processKey at hp
  split at hp
  · exact absurd hp (by simp)
  · split at hp
    · exact absurd hp (by simp)
    · split at hp
      · exact absurd hp (by simp)
      · rename_i t' htt
        rw [ht] at htt
        simp only [Except.ok.injEq] at htt hp
        subst htt
        subst hp
        rfl

/-- A positive duration below one second truncates to zero seconds. -/
theorem durationSeconds_subsecond {t : Int} (h0 : 0 < t) (h1 : t < 1000000000) :
    durationSeconds t = 0 := by
  obtain ⟨m, rfl⟩ := Int.eq_ofNat_of_zero_le h0.le
  have hm : m < 1000000000 := by exact_mod_cast h1
  show Int.ofNat (m / 1000000000) = 0
  rw [Nat.div_eq_of_lt hm]
  rfl

/-- An entry whose TTL field is zero marshals without a `ttl` member. -/
theorem encodeEntry_ttl_zero {e : RedisEntry} {j : Json} (h0 : e.ttl = 0)
    (he : encodeEntry e = .ok j) : jsonHasKey j "ttl" = false := by
  unfold encodeEntry at he
  split at he
  · exact absurd he (by simp)
  · simp only [Except.ok.injEq] at he
    subst he
    simp [jsonHasKey, h0]

/-- A marshalled entry carrying a `ttl` member has a non-zero TTL field. -/
theorem encodeEntry_hasKey_ttl {e : RedisEntry} {j : Json}
    (he : encodeEntry e = .ok j) (hk : jsonHasKey j "ttl" = true) : e.ttl ≠ 0 := by
  intro h0
  rw [encodeEntry_ttl_zero h0 he] at hk
  exact absurd hk (by simp)

/-- Replacing the TTL fetch leaves the type-dispatched value fetch alone. -/
theorem getValueByType_setTTLResult (c : RedisClient) (t : Int) (key kt : String) :
    getValueByType (setTTLResult c t) key kt = getValueByType c key kt := rfl

/-- Every entry the worker pool forwards is a successful resolution of its
own key against the client. -/
theorem workerRun_mem {c : RedisClient} {keys : List String} {e : RedisEntry}
    (h : e ∈ (workerRun c keys).fst) : processKey c e.key = .ok e := by
  induction keys with
  | nil => exact absurd h (by simp [workerRun])
  | cons k rest ih =>
    simp only [workerRun] at h
    cases hp : processKey c k with
    | error m =>
      rw [hp] at h
      exact ih h
    | ok e0 =>
      rw [hp] at h
      rcases List.mem_cons.mp h with rfl | h'
      · rw [processKey_ok_key hp]
        exact hp
      · exact ih h'

/-- The writer loop without cancellation always reaches the close event:
it returns `nil` and the content ends in the closing `"\n]"`. -/
theorem writerRun_none (es : List RedisEntry) (s : WriterState) :
    (writerRun es none s).snd = none ∧
    ∃ body, (writerRun es none s).fst.content = body ++ "\n]" := by
  induction es generalizing s with
  | nil => exact ⟨rfl, s.content, rfl⟩
  | cons e es ih =>
    have hstep : writerRun (e :: es) none s = writerRun es none (writerStep s e) := rfl
    rw [hstep]
    exact ih (writerStep s e)

/-- Existing writer log lines survive a writer step. -/
theorem writerStep_logs_mono {x : LogEntry} {s : WriterState} (e : RedisEntry)
    (h : x ∈ s.logs) : x ∈ (writerStep s e).logs := by
  unfold writerStep
  cases henc : encodeEntry e with
  | error m => simp [h]
  | ok j => simp [h]

/-- A failed element encode leaves its log line, tagged with the key. -/
theorem writerStep_fail_log {s : WriterState} {e : RedisEntry} {m : GoErr}
    (h : encodeEntry e = .error m) :
    (⟨[("key", e.key)], "Error encoding entry: " ++ m⟩ : LogEntry) ∈ (writerStep s e).logs := by
  unfold writerStep
  rw [h]
  simp

/-- Existing writer log lines survive the rest of an uncancelled run. -/
theorem writerRun_logs_mono {x : LogEntry} (es : List RedisEntry) (s : WriterState)
    (h : x ∈ s.logs) : x ∈ (writerRun es none s).fst.logs := by
  induction es generalizing s with
  | nil => exact h
  | cons e es ih =>
    have hstep : writerRun (e :: es) none s = writerRun es none (writerStep s e) := rfl
    rw [hstep]
    exact ih (writerStep s e) (writerStep_logs_mono e h)

/-- If the last byte of `b` is `c` then so is the last byte of `a ++ b`. -/
theorem lastChar_append (a b : String) {c : Char} (h : lastChar b = some c) :
    lastChar (a ++ b) = some c := by
  unfold lastChar at h ⊢
  rw [String.data_append]
  rw [List.getLast?_append_of_ne_nil]
  · exact h
  · intro hb
    rw [hb] at h
    exact absurd h (by simp)

/-- Every writer step leaves the flushed content ending in a newline. -/
theorem writerStep_lastChar {s : WriterState} (e : RedisEntry)
    (h : lastChar s.content = some '\n') :
    lastChar (writerStep s e).content = some '\n' := by
  have hsep : lastChar (if s.firstEntry = true then s.content else s.content ++ ",\n")
      = some '\n' := by
    split
    · exact h
    · exact lastChar_append _ _ rfl
  unfold writerStep
  cases henc : encodeEntry e with
  | error m => simpa using hsep
  | ok j =>
    simpa using lastChar_append
      ((if s.firstEntry = true then s.content else s.content ++ ",\n") ++ serialize j)
      "\n" rfl

/-- Observing cancellation within the result stream returns `ctx.Err()`
and leaves the content as flushed, still ending in a newline. -/
theorem writerRun_cancel (es : List RedisEntry) (n : Nat) (s : WriterState)
    (hn : n ≤ es.length) (h : lastChar s.content = some '\n') :
    (writerRun es (some n) s).snd = some "context canceled" ∧
    lastChar (writerRun es (some n) s).fst.content = some '\n' := by
  induction es generalizing n s with
  | nil =>
    obtain rfl : n = 0 := Nat.le_zero.mp hn
    exact ⟨rfl, h⟩
  | cons e es ih =>
    cases n with
    | zero => exact ⟨rfl, h⟩
    | succ m =>
      have hstep : writerRun (e :: es) (some (m + 1)) s
          = writerRun es (some m) (writerStep s e) := rfl
      rw [hstep]
      exact ih m (writerStep s e) (Nat.le_of_succ_le_succ hn) (writerStep_lastChar e h)

/-! ### Claim theorems -/

/-- C1 (counterexample): when the very first enumeration page fails,
`Export` nevertheless returns `nil` and the output file holds the finalized
empty array, contradicting the claimed `Failed` transition with the error
returned and the file absent or empty. -/
theorem scan_failure_cex :
    (exportRun scanFailClient none).ret = none ∧
    (exportRun scanFailClient none).content = "[\n\n]" :=
  ⟨rfl, rfl⟩

/-- C1 (amended): a key-enumeration failure is not fatal: the scan error is
only logged (`Error during key scanning`), the run then completes the
array normally (the content ends with the closing bracket) and `Export`
returns `nil`. -/
theorem scan_error_logged_run_completes (c : RedisClient) (m : GoErr)
    (h : c.scanErr = some m) :
    (exportRun c none).ret = none ∧
    (exportRun c none).scanLogs = [⟨[], "Error during key scanning: " ++ m⟩] ∧
    lastChar (exportRun c none).content = some ']' := by
  refine ⟨(writerRun_none (workerRun c c.scanKeys).fst initialWriter).1, ?_, ?_⟩
  · simp [exportRun, h]
  · obtain ⟨body, hb⟩ := (writerRun_none (workerRun c c.scanKeys).fst initialWriter).2
    show lastChar (writerRun (workerRun c c.scanKeys).fst none initialWriter).fst.content
      = some ']'
    rw [hb]
    exact lastChar_append body "\n]" rfl

/-- C1 (witness): the amended theorem applied to the failing-first-page
source. -/
theorem scan_error_logged_run_completes_witness :
    (exportRun scanFailClient none).ret = none ∧
    (exportRun scanFailClient none).scanLogs
      = [⟨[], "Error during key scanning: " ++ "boom"⟩] ∧
    lastChar (exportRun scanFailClient none).content = some ']' :=
  scan_error_logged_run_completes scanFailClient "boom" rfl

/-- C2 (counterexample): cancelling the two-key run after one element was
flushed returns the cancellation cause but leaves the file with an opening
bracket and no closing one — not a balanced, syntactically valid JSON
array as claimed. -/
theorem cancelled_output_unbalanced_cex :
    (exportRun cancelClient (some 1)).ret = some "context canceled" ∧
    bracketsBalanced (exportRun cancelClient (some 1)).content = false :=
  ⟨rfl, by decide⟩

/-- C2 (amended): on external cancellation observed before the result
stream closed, `Export` returns the cancellation cause, but the output
array is not finalized: the closing bracket is never written (the flushed
content still ends in a newline), so the file is not a balanced JSON
array. -/
theorem cancelled_run_returns_cause_unfinalized (c : RedisClient) (n : Nat)
    (hn : n ≤ (workerRun c c.scanKeys).fst.length) :
    (exportRun c (some n)).ret = some "context canceled" ∧
    lastChar (exportRun c (some n)).content = some '\n' :=
  writerRun_cancel (workerRun c c.scanKeys).fst n initialWriter hn rfl

/-- C2 (witness): the amended theorem applied to the two-key run cancelled
after one flushed element. -/
theorem cancelled_run_returns_cause_unfinalized_witness :
    (exportRun cancelClient (some 1)).ret = some "context canceled" ∧
    lastChar (exportRun cancelClient (some 1)).content = some '\n' :=
  cancelled_run_returns_cause_unfinalized cancelClient 1 (by decide)

/-- C3 (counterexample): with a first entry whose sorted-set score is
infinite (so `encoder.Encode` fails) and a second ordinary entry, the run
does not abort: the failure is logged, the second element is still
written, and `Export` returns `nil` — the element write failure was not
fatal. -/
theorem encode_failure_not_fatal_cex :
    (exportRun encodeFailClient none).ret = none ∧
    (exportRun encodeFailClient none).processed = 1 ∧
    (exportRun encodeFailClient none).written
      = [Json.obj [("key", Json.str "good"), ("type", Json.str "string"),
                   ("value", Json.str "v")]] ∧
    (exportRun encodeFailClient none).writerLogs
      = [⟨[("key", "bad")], "Error encoding entry: json: unsupported value: +Inf"⟩] :=
  ⟨rfl, rfl, rfl, rfl⟩

/-- C3 (amended): a failure while serializing an element is not fatal: the
writer logs it tagged with the offending key, skips the element, continues
with the remaining results and the run still returns `nil`. -/
theorem encode_failure_skipped_run_continues (results : List RedisEntry)
    (s : WriterState) (e : RedisEntry) (m : GoErr)
    (he : e ∈ results) (hm : encodeEntry e = .error m) :
    (writerRun results none s).snd = none ∧
    (⟨[("key", e.key)], "Error encoding entry: " ++ m⟩ : LogEntry)
      ∈ (writerRun results none s).fst.logs := by
  refine ⟨(writerRun_none results s).1, ?_⟩
  induction results generalizing s with
  | nil => exact absurd he (by simp)
  | cons x xs ih =>
    have hstep : writerRun (x :: xs) none s = writerRun xs none (writerStep s x) := rfl
    rw [hstep]
    rcases List.mem_cons.mp he with rfl | h'
    · exact writerRun_logs_mono xs (writerStep s e) (writerStep_fail_log hm)
    · exact ih (writerStep s x) h'

/-- C3 (witness): the amended theorem applied to the infinite-score entry
as the sole result. -/
theorem encode_failure_skipped_run_continues_witness :
    (writerRun [infScoreEntry] none initialWriter).snd = none ∧
    (⟨[("key", infScoreEntry.key)],
      "Error encoding entry: " ++ "json: unsupported value: +Inf"⟩ : LogEntry)
      ∈ (writerRun [infScoreEntry] none initialWriter).fst.logs :=
  encode_failure_skipped_run_continues [infScoreEntry] initialWriter infScoreEntry
    "json: unsupported value: +Inf" (by simp) rfl

/-- C4: failure of any of the three sequential sub-fetches (type, value —
which also covers an unsupported type — or TTL) aborts resolution for that
key only: `processKey` returns an error, the worker logs it tagged with the
key name and the underlying cause, forwards nothing for that key, continues
with the remaining keys, and the run itself still returns `nil`. -/
theorem subfetch_failure_key_scoped (c : RedisClient) (key : String) (m : GoErr)
    (rest : List String) :
    ((∃ e, c.typeOf key = .error e)
      ∨ (∃ kt e, c.typeOf key = .ok kt ∧ getValueByType c key kt = .error e)
      ∨ (∃ kt v e, c.typeOf key = .ok kt ∧ getValueByType c key kt = .ok v
            ∧ c.ttl key = .error e) →
      isError (processKey c key) = true)
    ∧ (processKey c key = .error m →
        workerRun c (key :: rest)
          = ((workerRun c rest).fst,
             ⟨[("key", key)], "Error processing key: " ++ m⟩ :: (workerRun c rest).snd)
        ∧ (exportRun c none).ret = none) := by
  constructor
  · rintro (⟨e, he⟩ | ⟨kt, e, h1, h2⟩ | ⟨kt, v, e, h1, h2, h3⟩)
    · simp [processKey, he, isError]
    · simp [processKey, h1, h2, isError]
    · simp [processKey, h1, h2, h3, isError]
  · intro hm
    refine ⟨?_, (writerRun_none _ _).1⟩
    simp only [workerRun]
    rw [hm]

/-- C4 (witness): the theorem applied to a client whose type fetch fails. -/
theorem subfetch_failure_key_scoped_witness :
    isError (processKey typeFailClient "k") = true ∧
    workerRun typeFailClient ["k"]
      = ((workerRun typeFailClient []).fst,
         ⟨[("key", "k")],
          "Error processing key: "
            ++ ("failed to get type for key " ++ "k" ++ ": " ++ "conn")⟩
           :: (workerRun typeFailClient []).snd) :=
  ⟨(subfetch_failure_key_scoped typeFailClient "k"
      ("failed to get type for key " ++ "k" ++ ": " ++ "conn") []).1
      (Or.inl ⟨"conn", rfl⟩),
   ((subfetch_failure_key_scoped typeFailClient "k"
      ("failed to get type for key " ++ "k" ++ ": " ++ "conn") []).2 rfl).1⟩

/-- C5: a fetched type outside the six supported ones makes the dispatch
return the `unsupported key type` error (no silent skip, no nil value),
`processKey` wraps it with the key name, and no entry for that key ever
reaches the output. -/
theorem unsupported_type_resolution_error (c : RedisClient) (key kt : String)
    (keys : List String) (e : RedisEntry)
    (h1 : kt ≠ "string") (h2 : kt ≠ "list") (h3 : kt ≠ "set")
    (h4 : kt ≠ "zset") (h5 : kt ≠ "hash") (h6 : kt ≠ "stream") :
    getValueByType c key kt = .error ("unsupported key type: " ++ kt)
    ∧ (c.typeOf key = .ok kt →
        processKey c key
          = .error ("failed to get value for key " ++ key ++ ": "
              ++ ("unsupported key type: " ++ kt)))
    ∧ (c.typeOf key = .ok kt → e ∈ (workerRun c keys).fst → e.key ≠ key) := by
  have hv : getValueByType c key kt = .error ("unsupported key type: " ++ kt) := by
    simp [getValueByType, h1, h2, h3, h4, h5, h6]
  refine ⟨hv, ?_, ?_⟩
  · intro ht
    simp [processKey, ht, hv]
  · intro ht hmem hk
    have hok := workerRun_mem hmem
    rw [hk] at hok
    have hbad : processKey c key
        = .error ("failed to get value for key " ++ key ++ ": "
            ++ ("unsupported key type: " ++ kt)) := by
      simp [processKey, ht, hv]
    rw [hbad] at hok
    exact absurd hok (by simp)

/-- C5 (witness): the theorem applied to a store holding a `ReJSON-RL`
key and one resolvable string key. -/
theorem unsupported_type_resolution_error_witness :
    getValueByType unsupportedTypeClient "x" "ReJSON-RL"
      = .error ("unsupported key type: " ++ "ReJSON-RL")
    ∧ processKey unsupportedTypeClient "x"
      = .error ("failed to get value for key " ++ "x" ++ ": "
          ++ ("unsupported key type: " ++ "ReJSON-RL"))
    ∧ ({ key := "y", type := "string", value := RValue.str "v" } : RedisEntry).key ≠ "x" := by
  have h := unsupported_type_resolution_error unsupportedTypeClient "x" "ReJSON-RL"
      ["x", "y"] { key := "y", type := "string", value := RValue.str "v" }
      (by decide) (by decide) (by decide) (by decide) (by decide) (by decide)
  exact ⟨h.1, h.2.1 rfl, h.2.2 rfl (by decide)⟩

/-- C6: the `ttl` member is present in the marshalled element only if the
fetched remaining TTL was strictly positive; and a no-expiry sentinel and
any other non-positive fetched TTL produce identical entries, whose
marshalled element omits the `ttl` member entirely. -/
theorem ttl_field_only_if_positive (c : RedisClient) (key : String)
    (e : RedisEntry) (j : Json) (t t1 t2 : Int) :
    (processKey c key = .ok e → c.ttl key = .ok t → encodeEntry e = .ok j →
      jsonHasKey j "ttl" = true → 0 < t)
    ∧ (t1 ≤ 0 → t2 ≤ 0 →
        processKey (setTTLResult c t1) key = processKey (setTTLResult c t2) key)
    ∧ (t1 ≤ 0 → processKey (setTTLResult c t1) key = .ok e →
        encodeEntry e = .ok j → jsonHasKey j "ttl" = false) := by
  refine ⟨?_, ?_, ?_⟩
  · intro hp ht he hk
    by_contra h0
    have httl := processKey_ttl_val ht hp
    rw [if_neg h0] at httl
    exact encodeEntry_hasKey_ttl he hk httl
  · intro ha hb
    unfold processKey
    rw [show (setTTLResult c t1).typeOf key = c.typeOf key from rfl,
        show (setTTLResult c t2).typeOf key = c.typeOf key from rfl]
    cases hkt : c.typeOf key with
    | error m => rfl
    | ok kt =>
      dsimp only
      rw [getValueByType_setTTLResult c t1 key kt, getValueByType_setTTLResult c t2 key kt]
      cases hval : getValueByType c key kt with
      | error m => rfl
      | ok v =>
        dsimp only
        rw [show (setTTLResult c t1).ttl key = .ok t1 from rfl,
            show (setTTLResult c t2).ttl key = .ok t2 from rfl]
        dsimp only
        rw [if_neg (not_lt.mpr ha), if_neg (not_lt.mpr hb)]
  · intro ha hp he
    have httl := processKey_ttl_val (show (setTTLResult c t1).ttl key = .ok t1 from rfl) hp
    rw [if_neg (not_lt.mpr ha)] at httl
    exact encodeEntry_ttl_zero httl he

/-- C6 (witness): the theorem applied to a one-hour-TTL string key, and
to the same key with the TTL fetch replaced by two different non-positive
sentinels. -/
theorem ttl_field_only_if_positive_witness :
    ((0 : Int) < 3600000000000)
    ∧ processKey (setTTLResult ttlClient (-1000000000)) "k"
        = processKey (setTTLResult ttlClient (-2000000000)) "k"
    ∧ jsonHasKey (Json.obj [("key", Json.str "k"), ("type", Json.str "string"),
        ("value", Json.str "v")]) "ttl" = false := by
  refine ⟨?_, ?_, ?_⟩
  · exact (ttl_field_only_if_positive ttlClient "k"
      { key := "k", type := "string", value := RValue.str "v", ttl := 3600 }
      (Json.obj [("key", Json.str "k"), ("type", Json.str "string"),
        ("value", Json.str "v"), ("ttl", Json.num 3600)])
      3600000000000 0 0).1 rfl rfl rfl rfl
  · exact (ttl_field_only_if_positive ttlClient "k"
      { key := "k", type := "string", value := RValue.str "v" }
      Json.null 0 (-1000000000) (-2000000000)).2.1 (by decide) (by decide)
  · have hp : processKey (setTTLResult ttlClient (-1000000000)) "k"
        = .ok { key := "k", type := "string", value := RValue.str "v" } := rfl
    exact (ttl_field_only_if_positive ttlClient "k"
      { key := "k", type := "string", value := RValue.str "v" }
      (Json.obj [("key", Json.str "k"), ("type", Json.str "string"),
        ("value", Json.str "v")])
      0 (-1000000000) 0).2.2 (by decide) hp rfl

/-- C7: for the source holding exactly the string key `test:key` with
value `test value` and no expiry, the completed run returns `nil` and its
output is the one-element JSON array of that object, with no `ttl`
member. -/
theorem single_string_key_scenario :
    (exportRun c7client none).ret = none ∧
    (exportRun c7client none).written
      = [Json.obj [("key", Json.str "test:key"), ("type", Json.str "string"),
                   ("value", Json.str "test value")]] ∧
    jsonHasKey (Json.obj [("key", Json.str "test:key"), ("type", Json.str "string"),
                   ("value", Json.str "test value")]) "ttl" = false ∧
    (exportRun c7client none).content
      = "[\n\x7b\"key\":\"test:key\",\"type\":\"string\",\"value\":\"test value\"\x7d\n\n]" :=
  ⟨rfl, rfl, rfl, by decide⟩

/-- C8: marshalling a record and unmarshalling the result restores the key,
type and (JSON-shaped) value exactly, and the `ttl` field exactly — with
the absent `ttl` member decoding to the zero default, which is precisely
the field value that caused the omission. -/
theorem encode_decode_roundtrip (e : RedisEntry) (j vj : Json)
    (he : encodeEntry e = .ok j) (hv : valueToJson e.value = .ok vj) :
    decodeEntry j = some ⟨e.key, e.type, vj, e.ttl⟩ := by
  unfold encodeEntry at he
  simp only [hv, Except.ok.injEq] at he
  subst he
  by_cases h0 : e.ttl = 0
  · rw [if_pos h0, h0]
    rfl
  · rw [if_neg h0]
    rfl

/-- C8 (witness): the theorem applied to a list-valued record without
expiry. -/
theorem encode_decode_roundtrip_witness :
    decodeEntry (Json.obj [("key", Json.str "k"), ("type", Json.str "list"),
        ("value", Json.arr [Json.str "a", Json.str "b"])])
      = some ⟨sampleListEntry.key, sampleListEntry.type,
              Json.arr [Json.str "a", Json.str "b"], sampleListEntry.ttl⟩ :=
  encode_decode_roundtrip sampleListEntry _ _ rfl rfl

/-- C9: with both channels created with capacity `BatchSize`, every
reachable buffer configuration of the pipeline holds at most `BatchSize`
enumerated-but-unresolved keys and at most `BatchSize`
resolved-but-unwritten records, independent of how many steps ran. -/
theorem bounded_queue_invariant (cfg : Config) (s : PipeState)
    (h : PipeReachable (keysChanCap cfg) (resultsChanCap cfg) s) :
    s.keysBuf.length ≤ cfg.BatchSize ∧ s.resultsBuf.length ≤ cfg.BatchSize := by
  induction h with
  | init => exact ⟨Nat.zero_le _, Nat.zero_le _⟩
  | step hr hs ih =>
    cases hs with
    | enqueueKey s0 k hlt =>
      refine ⟨?_, ih.2⟩
      simp only [List.length_append, List.length_cons, List.length_nil]
      exact Nat.succ_le_of_lt hlt
    | dequeueKey k ks rs =>
      exact ⟨Nat.le_of_succ_le ih.1, ih.2⟩
    | enqueueResult s0 e hlt =>
      refine ⟨ih.1, ?_⟩
      simp only [List.length_append, List.length_cons, List.length_nil]
      exact Nat.succ_le_of_lt hlt
    | dequeueResult ks e rs =>
      exact ⟨ih.1, Nat.le_of_succ_le ih.2⟩

/-- C9 (witness): the invariant applied to a reachable one-key buffer
state under the sample configuration's capacity 3. -/
theorem bounded_queue_invariant_witness :
    (PipeState.mk ["a"] []).keysBuf.length ≤ 3 ∧
    (PipeState.mk ["a"] []).resultsBuf.length ≤ 3 :=
  bounded_queue_invariant sampleConfig ⟨["a"], []⟩
    (.step .init (.enqueueKey ⟨[], []⟩ "a" (by decide)))

/-- C10: a remaining TTL strictly between zero and one second truncates to
zero whole seconds, so the entry's TTL field is zero and the marshalled
element omits the `ttl` member even though the observed TTL was strictly
positive. -/
theorem subsecond_ttl_omitted (c : RedisClient) (key : String) (t : Int)
    (e : RedisEntry) (j : Json)
    (ht : c.ttl key = .ok t) (h0 : 0 < t) (h1 : t < 1000000000)
    (hp : processKey c key = .ok e) (he : encodeEntry e = .ok j) :
    e.ttl = 0 ∧ jsonHasKey j "ttl" = false := by
  have hv := processKey_ttl_val ht hp
  rw [if_pos h0, durationSeconds_subsecond h0 h1] at hv
  exact ⟨hv, encodeEntry_ttl_zero hv he⟩

/-- C10 (witness): the theorem applied to a key with a half-second
remaining TTL. -/
theorem subsecond_ttl_omitted_witness :
    ({ key := "k", type := "string", value := RValue.str "v" } : RedisEntry).ttl = 0
    ∧ jsonHasKey (Json.obj [("key", Json.str "k"), ("type", Json.str "string"),
        ("value", Json.str "v")]) "ttl" = false :=
  subsecond_ttl_omitted subsecondTtlClient "k" 500000000
    { key := "k", type := "string", value := RValue.str "v" }
    (Json.obj [("key", Json.str "k"), ("type", Json.str "string"),
        ("value", Json.str "v")])
    rfl (by decide) (by decide) rfl rfl

end RedisExport
